import Mathlib

/-!
Verification of the text-extraction and snapshot pipeline of
`src/scraper.py` (ukraine-combat-data).

Embedding conventions: Python regular expressions are embedded as a small
backtracking matcher over `List Char` with Python `re` priority order
(alternatives left first, greedy pieces longest first, lazy pieces
shortest first, `finditer` scanning left to right without overlap);
Python dictionaries are embedded as insertion-ordered association lists;
the two successive UTC clock reads in `build_combat_data` are passed in
as explicit instants (seconds since the epoch, calendar date = instant
divided by 86400); network fetches are passed in as explicit outcomes.
-/

namespace Scraper

/-- Python whitespace as tested by `str.strip` and the `\s` class
(ASCII range, which covers all inputs considered here). -/
def isSpacePy (c : Char) : Bool :=
  c == ' ' || c == '\t' || c == '\n' || c == '\r' || c == '\x0b' || c == '\x0c'

/-- Python `\w` (ASCII range): letters, digits, underscore. -/
def isWordChar (c : Char) : Bool := c.isAlpha || c.isDigit || c == '_'

/-- The character classes occurring in the five patterns of
`parse_engagement_count`: `\w`, `\d`, `\s`, `[-\s]`, `[,:\s]`, `[-–:]`,
`[-–]` and `.` (any character except a newline). -/
inductive CharClass where
  | word
  | digit
  | space
  | dashOrSpace
  | commaColonSpace
  | dashEnDashColon
  | dashOrEnDash
  | anyNoNl
deriving DecidableEq

def memCC : CharClass → Char → Bool
  | .word, c => isWordChar c
  | .digit, c => c.isDigit
  | .space, c => isSpacePy c
  | .dashOrSpace, c => c == '-' || isSpacePy c
  | .commaColonSpace, c => c == ',' || c == ':' || isSpacePy c
  | .dashEnDashColon, c => c == '-' || c == '–' || c == ':'
  | .dashOrEnDash, c => c == '-' || c == '–'
  | .anyNoNl, c => !(c == '\n')

/-- Regular-expression syntax: exactly the constructs used by the five
patterns in `parse_engagement_count` (greedy `+`/`*` occur only on
character classes, the lazy star occurs only as `.*?`, and the only
capturing groups are numbered 1 and 2). -/
inductive RE where
  | strL (l : List Char)
  | cls (k : CharClass)
  | cat (a b : RE)
  | alt (a b : RE)
  | optG (a : RE)
  | plusC (k : CharClass)
  | starC (k : CharClass)
  | lazyDotStar
  | grp (idx : Nat) (a : RE)
deriving DecidableEq

/-- Captured groups 1 and 2 of a match. -/
def Caps : Type := Option (List Char) × Option (List Char)

def setCap (i : Nat) (v : List Char) (cp : Caps) : Caps :=
  if i == 1 then (some v, cp.2) else (cp.1, some v)

/-- Match a literal character sequence, returning the rest of the input. -/
def eatL : List Char → List Char → Option (List Char)
  | [], s => some s
  | _ :: _, [] => none
  | a :: as, b :: bs => if a == b then eatL as bs else none

/-- Greedy continuation of a class repetition: consume one more class
character if possible (longest match first), falling back to handing the
current rest of the input to the continuation. -/
def greedyMore {α : Type} (k : CharClass) (s : List Char) (f : List Char → Option α) :
    Option α :=
  match s with
  | [] => f []
  | c :: t =>
    if memCC k c then (greedyMore k t f).orElse (fun _ => f s) else f s

/-- Lazy `.*?`: hand the current rest to the continuation first (shortest
match first), else consume one more non-newline character. -/
def lazyMore {α : Type} (s : List Char) (f : List Char → Option α) : Option α :=
  (f s).orElse fun _ =>
    match s with
    | [] => none
    | c :: t => if memCC .anyNoNl c then lazyMore t f else none

/-- Backtracking matcher in continuation-passing style.  The first
`some` produced respects Python `re` priority: alternatives in written
order, optional pieces present first, greedy repetitions longest first,
the lazy dot-star shortest first. -/
def mrun : RE → List Char → Caps → (List Char → Caps → Option (List Char × Caps)) →
    Option (List Char × Caps)
  | .strL l, s, cp, k =>
    match eatL l s with
    | some s2 => k s2 cp
    | none => none
  | .cls c, s, cp, k =>
    match s with
    | [] => none
    | ch :: t => if memCC c ch then k t cp else none
  | .cat a b, s, cp, k => mrun a s cp (fun s2 cp2 => mrun b s2 cp2 k)
  | .alt a b, s, cp, k => (mrun a s cp k).orElse (fun _ => mrun b s cp k)
  | .optG a, s, cp, k => (mrun a s cp k).orElse (fun _ => k s cp)
  | .plusC c, s, cp, k =>
    match s with
    | [] => none
    | ch :: t => if memCC c ch then greedyMore c t (fun s2 => k s2 cp) else none
  | .starC c, s, cp, k => greedyMore c s (fun s2 => k s2 cp)
  | .lazyDotStar, s, cp, k => lazyMore s (fun s2 => k s2 cp)
  | .grp i a, s, cp, k =>
    mrun a s cp (fun s2 cp2 => k s2 (setCap i (s.take (s.length - s2.length)) cp2))

/-- Anchored match attempt at the start of `s`, returning the rest of the
input after the match together with the captured groups. -/
def tryMatch (re : RE) (s : List Char) : Option (List Char × Caps) :=
  mrun re s (none, none) (fun s2 cp => some (s2, cp))

/-- `re.finditer` semantics: scan left to right, report each leftmost
match and resume after it (advancing a single position after an empty
match, as Python does). -/
def fscan (re : RE) : Nat → List Char → List Caps
  | 0, _ => []
  | _ + 1, [] =>
    match tryMatch re [] with
    | some (_, cp) => [cp]
    | none => []
  | fuel + 1, s@(_ :: t) =>
    match tryMatch re s with
    | some (s2, cp) =>
      if s2.length < s.length then cp :: fscan re fuel s2 else cp :: fscan re fuel t
    | none => fscan re fuel t

def pyFinditer (re : RE) (s : List Char) : List Caps :=
  fscan re (s.length + 1) s

/-- `match.groups()` restricted to the two groups every pattern defines. -/
def groupsOf (cp : Caps) : List Char × List Char :=
  (cp.1.getD [], cp.2.getD [])

def sL (s : String) : RE := .strL s.data

/-- `\w+(?:[-\s]\w+)?` — the location-phrase slot of patterns 1, 2, 3, 4, 5. -/
def wordPhrase : RE :=
  .cat (.plusC .word) (.optG (.cat (.cls .dashOrSpace) (.plusC .word)))

/-- `in\s+the\s+` -/
def inThe : RE :=
  .cat (sL "in") (.cat (.plusC .space) (.cat (sL "the") (.plusC .space)))

/-- `(?:attack|attempt|assault|engagement|offensive)` -/
def attackWords5 : RE :=
  .alt (sL "attack") (.alt (sL "attempt")
    (.alt (sL "assault") (.alt (sL "engagement") (sL "offensive"))))

/-- `(?:attack|attempt|assault|engagement)` -/
def attackWords4 : RE :=
  .alt (sL "attack") (.alt (sL "attempt") (.alt (sL "assault") (sL "engagement")))

/-- `(?:made|conducted|carried out|recorded)` -/
def madeWords : RE :=
  .alt (sL "made") (.alt (sL "conducted") (.alt (sL "carried out") (sL "recorded")))

/-- Pattern 1 of `parse_engagement_count`:
`(?:in\s+the\s+)?(\w+(?:[-\s]\w+)?)\s+direction[,:\s]+.*?(?:made|conducted|carried out|recorded)\s+(\d+)\s+(?:attack|attempt|assault|engagement|offensive)` -/
def pat1 : RE :=
  .cat (.optG inThe) (.cat (.grp 1 wordPhrase) (.cat (.plusC .space)
    (.cat (sL "direction") (.cat (.plusC .commaColonSpace) (.cat .lazyDotStar
      (.cat madeWords (.cat (.plusC .space) (.cat (.grp 2 (.plusC .digit))
        (.cat (.plusC .space) attackWords5)))))))))

/-- Pattern 2:
`(\w+(?:[-\s]\w+)?)\s+direction\s*[-–:]\s*(\d+)\s+(?:attack|attempt|assault|engagement)` -/
def pat2 : RE :=
  .cat (.grp 1 wordPhrase) (.cat (.plusC .space) (.cat (sL "direction")
    (.cat (.starC .space) (.cat (.cls .dashEnDashColon) (.cat (.starC .space)
      (.cat (.grp 2 (.plusC .digit)) (.cat (.plusC .space) attackWords4)))))))

/-- Pattern 3:
`(\d+)\s+(?:attack|attempt|assault|engagement)s?\s+(?:in\s+the\s+)?(\w+(?:[-\s]\w+)?)\s+direction` -/
def pat3 : RE :=
  .cat (.grp 1 (.plusC .digit)) (.cat (.plusC .space) (.cat attackWords4
    (.cat (.optG (sL "s")) (.cat (.plusC .space) (.cat (.optG inThe)
      (.cat (.grp 2 wordPhrase) (.cat (.plusC .space) (sL "direction"))))))))

/-- Pattern 4:
`(\w+(?:[-\s]\w+)?)\s+direction.*?repelled\s+(\d+)\s+(?:enemy\s+)?(?:attack|assault)` -/
def pat4 : RE :=
  .cat (.grp 1 wordPhrase) (.cat (.plusC .space) (.cat (sL "direction")
    (.cat .lazyDotStar (.cat (sL "repelled") (.cat (.plusC .space)
      (.cat (.grp 2 (.plusC .digit)) (.cat (.plusC .space)
        (.cat (.optG (.cat (sL "enemy") (.plusC .space)))
          (.alt (sL "attack") (sL "assault"))))))))))

/-- Pattern 5 (generic list form): `(\w+(?:[-\s]\w+)?)\s*[-–]\s*(\d+)(?:\s+attack)?` -/
def pat5 : RE :=
  .cat (.grp 1 wordPhrase) (.cat (.starC .space) (.cat (.cls .dashOrEnDash)
    (.cat (.starC .space) (.cat (.grp 2 (.plusC .digit))
      (.optG (.cat (.plusC .space) (sL "attack")))))))

/-- The ordered pattern list of `parse_engagement_count`. -/
def patternList : List RE := [pat1, pat2, pat3, pat4, pat5]

/-- `DIRECTION_ALIASES` from `src/scraper.py`, in authored insertion order
(Python dictionaries preserve it). -/
def DIRECTION_ALIASES : List (String × String) := [
  ("pokrovsk", "pokrovsk"),
  ("kostiantynivka", "kostiantynivka"),
  ("kostyantynivka", "kostiantynivka"),
  ("konstantynivka", "kostiantynivka"),
  ("oleksandrivka", "oleksandrivka"),
  ("alexandrivka", "oleksandrivka"),
  ("lyman", "lyman"),
  ("sloviansk", "sloviansk"),
  ("slovyansk", "sloviansk"),
  ("slavyansk", "sloviansk"),
  ("huliaipole", "huliaipole"),
  ("gulyaipole", "huliaipole"),
  ("orikhiv", "orikhiv"),
  ("orekhov", "orikhiv"),
  ("kupiansk", "kupiansk"),
  ("kupyansk", "kupiansk"),
  ("kramatorsk", "kramatorsk"),
  ("kursk", "kursk"),
  ("kharkiv", "kharkiv_north"),
  ("slobozhansky", "kharkiv_north"),
  ("slobozhansk", "kharkiv_north"),
  ("northern-slobozhansky", "kharkiv_north"),
  ("northern slobozhansky", "kharkiv_north"),
  ("north-slobozhansky", "kharkiv_north"),
  ("southern-slobozhansky", "kharkiv_north"),
  ("southern slobozhansky", "kharkiv_north"),
  ("kherson", "kherson"),
  ("prydniprovskyi", "kherson"),
  ("prydniprovsky", "kherson"),
  ("dnipro", "kherson"),
  ("toretsk", "toretsk"),
  ("siversk", "siversk")]

/-- Display metadata of one sector; coordinates from the source carry two
decimal places, so they are embedded as integers scaled by 100. -/
structure SectorInfo where
  displayName : String
  coords : Int × Int
  polygon : List (Int × Int)
deriving DecidableEq

/-- `DIRECTION_CONFIG` from `src/scraper.py`, in authored insertion order. -/
def DIRECTION_CONFIG : List (String × SectorInfo) := [
  ("pokrovsk", ⟨"Pokrovsk", (4828, 3718),
    [(4845, 3690), (4850, 3750), (4820, 3760), (4805, 3720), (4815, 3685)]⟩),
  ("kostiantynivka", ⟨"Kostiantynivka", (4852, 3770),
    [(4865, 3745), (4870, 3795), (4845, 3800), (4835, 3760), (4850, 3740)]⟩),
  ("oleksandrivka", ⟨"Oleksandrivka", (4795, 3670),
    [(4810, 3650), (4810, 3695), (4785, 3700), (4775, 3665), (4790, 3645)]⟩),
  ("lyman", ⟨"Lyman", (4898, 3781),
    [(4915, 3750), (4920, 3810), (4900, 3825), (4880, 3800), (4885, 3755)]⟩),
  ("sloviansk", ⟨"Sloviansk", (4885, 3758),
    [(4895, 3735), (4900, 3775), (4880, 3785), (4870, 3750), (4880, 3730)]⟩),
  ("huliaipole", ⟨"Huliaipole", (4765, 3625),
    [(4785, 3590), (4785, 3650), (4755, 3660), (4740, 3620), (4755, 3585)]⟩),
  ("orikhiv", ⟨"Orikhiv", (4756, 3578),
    [(4775, 3550), (4775, 3600), (4745, 3605), (4735, 3565), (4750, 3545)]⟩),
  ("kupiansk", ⟨"Kupiansk", (4971, 3762),
    [(4990, 3730), (4995, 3790), (4970, 3800), (4950, 3770), (4955, 3725)]⟩),
  ("kramatorsk", ⟨"Kramatorsk", (4872, 3755),
    [(4882, 3740), (4885, 3770), (4865, 3775), (4858, 3750), (4868, 3735)]⟩),
  ("kursk", ⟨"Kursk (RU)", (5140, 3520),
    [(5165, 3460), (5170, 3560), (5135, 3580), (5110, 3530), (5125, 3470)]⟩),
  ("kharkiv_north", ⟨"Kharkiv (N)", (5005, 3645),
    [(5025, 3610), (5030, 3680), (5005, 3695), (4985, 3655), (4995, 3615)]⟩),
  ("kherson", ⟨"Kherson", (4665, 3262),
    [(4685, 3220), (4690, 3300), (4655, 3310), (4640, 3260), (4655, 3215)]⟩),
  ("toretsk", ⟨"Toretsk", (4840, 3785),
    [(4855, 3765), (4855, 3805), (4830, 3810), (4825, 3775), (4840, 3760)]⟩),
  ("siversk", ⟨"Siversk", (4887, 3808),
    [(4900, 3790), (4905, 3830), (4880, 3835), (4872, 3800), (4885, 3785)]⟩)]

/-- The canonical sector IDs, in registry iteration order. -/
def registryIds : List String := DIRECTION_CONFIG.map Prod.fst

/-- `canonical in DIRECTION_CONFIG` from the source. -/
def registryHas (c : String) : Bool := DIRECTION_CONFIG.any (fun p => p.1 == c)

/-- `get_heat_level` from `src/scraper.py`. -/
def get_heat_level (engagements : Nat) : String :=
  if engagements ≥ 30 then "extreme"
  else if engagements ≥ 15 then "high"
  else if engagements ≥ 8 then "medium"
  else if engagements ≥ 3 then "low"
  else "quiet"

/-- Position of a heat label in the ordered severity scale
quiet < low < medium < high < extreme. -/
def heatRank (s : String) : Nat :=
  if s = "quiet" then 0
  else if s = "low" then 1
  else if s = "medium" then 2
  else if s = "high" then 3
  else 4

/-- `str.isdigit` for the strings arising here: nonempty and all digits. -/
def isdigitL (l : List Char) : Bool := !l.isEmpty && l.all Char.isDigit

/-- `int(...)` on a digit string. -/
def toNatL (l : List Char) : Nat :=
  l.foldl (fun a c => a * 10 + (c.toNat - '0'.toNat)) 0

/-- `str.strip()`: drop leading and trailing Python whitespace. -/
def stripL (l : List Char) : List Char :=
  ((l.dropWhile isSpacePy).reverse.dropWhile isSpacePy).reverse

/-- `direction.strip().replace('-', '_').replace(' ', '_')`. -/
def cleanDirection (d : List Char) : List Char :=
  (stripL d).map (fun c => if c == '-' then '_' else if c == ' ' then '_' else c)

/-- `a in b` for Python strings: `p` occurs contiguously inside `s`
(true for an empty `p`). -/
def startsWithL : List Char → List Char → Bool
  | [], _ => true
  | _ :: _, [] => false
  | a :: as, b :: bs => a == b && startsWithL as bs

def isSubstrL (p s : List Char) : Bool :=
  match s with
  | [] => p.isEmpty
  | _ :: t => startsWithL p s || isSubstrL p t

/-- `alias in direction or direction in alias` — the bidirectional
substring compatibility test of the alias loop. -/
def compatibleL (ali direction : List Char) : Bool :=
  isSubstrL ali direction || isSubstrL direction ali

/-- The alias loop of `parse_engagement_count`: iterate the table in
authored order, accept the first compatible entry (`break`). -/
def aliasFind : List (String × String) → List Char → Option String
  | [], _ => none
  | (a, canon) :: rest, d =>
    if compatibleL a.data d then some canon else aliasFind rest d

def resolveCanonical (d : List Char) : Option String :=
  aliasFind DIRECTION_ALIASES d

/-- The count/location disambiguation: the purely numeric group is the
count (`groups[0].isdigit()` decides which). -/
def disambiguate (g1 g2 : List Char) : Nat × List Char :=
  if isdigitL g1 then (toNatL g1, g2) else (toNatL g2, g1)

/-- Resolution of one raw match to a (canonical sector, count) candidate:
clean the location phrase, resolve it through the alias table, and keep
the result only if the canonical ID is in `DIRECTION_CONFIG`. -/
def candOf (gg1 gg2 : List Char) : Option (String × Nat) :=
  match resolveCanonical (cleanDirection (disambiguate gg1 gg2).2) with
  | some canonical =>
    if registryHas canonical then some (canonical, (disambiguate gg1 gg2).1) else none
  | none => none

/-- Insertion-ordered dictionary lookup (`results[k]` / `k in results`). -/
def lookupA : List (String × Nat) → String → Option Nat
  | [], _ => none
  | (k, v) :: t, c => if k == c then some v else lookupA t c

/-- Insertion-ordered dictionary update `results[k] = v`: replace in
place if the key exists, else append. -/
def setA : List (String × Nat) → String → Nat → List (String × Nat)
  | [], c, n => [(c, n)]
  | (k, v) :: t, c, n => if k == c then (k, n) :: t else (k, v) :: setA t c n

/-- One iteration of the match loop body:
`if canonical not in results or count > results[canonical]: results[canonical] = count`. -/
def stepMatch (results : List (String × Nat)) (m : List Char × List Char) :
    List (String × Nat) :=
  match candOf m.1 m.2 with
  | some (c, n) =>
    match lookupA results c with
    | none => setA results c n
    | some cur => if n > cur then setA results c n else results
  | none => results

/-- All raw matches of all five patterns over the (already lowercased)
text, in pattern order then text order — the order the nested loops of
`parse_engagement_count` visit them. -/
def allRawMatches (t : List Char) : List (List Char × List Char) :=
  patternList.flatMap (fun p => (pyFinditer p t).map groupsOf)

def lowerL (l : List Char) : List Char := l.map Char.toLower

/-- `parse_engagement_count` from `src/scraper.py`. -/
def parse_engagement_count (text : String) : List (String × Nat) :=
  (allRawMatches (lowerL text.data)).foldl stepMatch []

/-- One row of `frontSectors`. -/
structure FrontSector where
  name : String
  displayName : String
  coords : Int × Int
  combatEngagements : Nat
  heat : String
  polygon : List (Int × Int)
deriving DecidableEq

/-- One attribution block of the casualty sub-record. -/
structure CasualtySide where
  total : Nat
  daily : Option Nat
  srcLabel : String
deriving DecidableEq

structure Casualties where
  russia : CasualtySide
  ukraine : CasualtySide
deriving DecidableEq

/-- The static fallback constant of `fetch_casualty_data`. -/
def STATIC_CASUALTIES : Casualties :=
  ⟨⟨1167570, some 1120, "Ukrainian General Staff"⟩,
   ⟨400000, none, "Zelensky (Jan 2025)"⟩⟩

/-- The full output document.  `date` is the UTC day index stamped from
the first clock read, `lastUpdate` the instant of the second clock read. -/
structure CombatData where
  date : Nat
  srcLabel : String
  sourceUrl : Option String
  totalEngagements : Nat
  lastUpdate : Nat
  frontSectors : List FrontSector
  casualties : Casualties
deriving DecidableEq

/-- The record built for one registry sector:
count defaulted to 0, heat derived from that count. -/
def mkSector (counts : List (String × Nat)) (p : String × SectorInfo) : FrontSector :=
  let count := (lookupA counts p.1).getD 0
  ⟨p.1, p.2.displayName, p.2.coords, count, get_heat_level count, p.2.polygon⟩

/-- The `front_sectors` list before sorting: one record per
`DIRECTION_CONFIG` entry, in registry iteration order. -/
def frontSectorsOf (counts : List (String × Nat)) : List FrontSector :=
  DIRECTION_CONFIG.map (mkSector counts)

/-- Stable insertion (earlier elements stay before later ones of equal
count): walk past strictly greater counts, insert before the first
less-or-equal one. -/
def insertDesc (x : FrontSector) : List FrontSector → List FrontSector
  | [] => [x]
  | y :: ys =>
    if x.combatEngagements < y.combatEngagements then y :: insertDesc x ys
    else x :: y :: ys

/-- `front_sectors.sort(key=..., reverse=True)`: the stable descending
sort by `combatEngagements` (Python's sort is stable). -/
def sortDesc : List FrontSector → List FrontSector
  | [] => []
  | x :: xs => insertDesc x (sortDesc xs)

def sumValues (m : List (String × Nat)) : Nat := (m.map Prod.snd).sum

/-- `build_combat_data` from `src/scraper.py`.  The casualty payload is
the external collaborator's result (`fetch_casualty_data()`), and `t1`,
`t2` are the two successive `datetime.now(timezone.utc)` reads: the one
that stamps `date` and the one that stamps `lastUpdate`. -/
def build_combat_data (engagement_counts : List (String × Nat))
    (source_url : Option String) (cas : Casualties) (t1 t2 : Nat) : CombatData :=
  { date := t1 / 86400
    srcLabel := "Ukrainian General Staff"
    sourceUrl := source_url
    totalEngagements := sumValues engagement_counts
    lastUpdate := t2
    frontSectors := sortDesc (frontSectorsOf engagement_counts)
    casualties := cas }

/-- Possible outcomes of `fetch_latest_report()`: a report with its URL,
the `(None, None)` return (no matching article found, or every matching
article lacked a `newsText` body), or an uncaught exception (network
error, timeout, or `raise_for_status` on a non-success response). -/
inductive FetchOutcome where
  | success (text : String) (url : String)
  | notFound
  | raised (e : String)
deriving DecidableEq

/-- The hardcoded fallback map in `main` (used when the fetch returned
nothing and no prior snapshot exists). -/
def FALLBACK_ENGAGEMENT_COUNTS : List (String × Nat) := [
  ("pokrovsk", 35),
  ("kostiantynivka", 20),
  ("oleksandrivka", 14),
  ("lyman", 10),
  ("huliaipole", 8),
  ("sloviansk", 6),
  ("kupiansk", 5),
  ("orikhiv", 4),
  ("kramatorsk", 3),
  ("kursk", 2),
  ("kharkiv_north", 2),
  ("kherson", 1)]

/-- The dictionary comprehension reconstructing an engagement count map
from a prior snapshot's `frontSectors`. -/
def reconstructCounts (d : CombatData) : List (String × Nat) :=
  d.frontSectors.foldl (fun m s => setA m s.name s.combatEngagements) []

/-- `main` from `src/scraper.py`, as a function of the external world:
the report-fetch outcome, the previously persisted snapshot (if any
readable one exists), the casualty payload, and the two clock reads
inside `build_combat_data`.  An uncaught exception from
`fetch_latest_report` propagates (`Except.error`); otherwise the built
snapshot is written and returned. -/
def main (fetched : FetchOutcome) (existing : Option CombatData)
    (cas : Casualties) (t1 t2 : Nat) : Except String CombatData :=
  match fetched with
  | .raised e => .error e
  | .success text url =>
    .ok (build_combat_data (parse_engagement_count text) (some url) cas t1 t2)
  | .notFound =>
    let engagement_counts :=
      match existing with
      | some prior => reconstructCounts prior
      | none => FALLBACK_ENGAGEMENT_COUNTS
    .ok (build_combat_data engagement_counts none cas t1 t2)

/-! ### Heat classifier lemmas -/

theorem heatRank_get_heat_level (n : Nat) :
    heatRank (get_heat_level n) =
      if n ≥ 30 then 4 else if n ≥ 15 then 3 else if n ≥ 8 then 2
      else if n ≥ 3 then 1 else 0 := by
  unfold get_heat_level
  split_ifs <;> simp [heatRank]

/-! ### Stable descending sort lemmas -/

theorem mem_insertDesc {x z : FrontSector} {l : List FrontSector} :
    z ∈ insertDesc x l ↔ z = x ∨ z ∈ l := by
  induction l with
  | nil => simp [insertDesc]
  | cons y ys ih =>
    unfold insertDesc
    split_ifs with h
    · simp only [List.mem_cons, ih]
      tauto
    · simp only [List.mem_cons]

theorem perm_insertDesc (x : FrontSector) (l : List FrontSector) :
    List.Perm (insertDesc x l) (x :: l) := by
  induction l with
  | nil => exact List.Perm.refl _
  | cons y ys ih =>
    unfold insertDesc
    split_ifs with h
    · exact (ih.cons y).trans (List.Perm.swap x y ys)
    · exact List.Perm.refl _

theorem perm_sortDesc (l : List FrontSector) : List.Perm (sortDesc l) l := by
  induction l with
  | nil => exact List.Perm.refl _
  | cons x xs ih => exact (perm_insertDesc x (sortDesc xs)).trans (ih.cons x)

theorem pairwise_insertDesc {x : FrontSector} {l : List FrontSector}
    (h : l.Pairwise (fun a b => b.combatEngagements ≤ a.combatEngagements)) :
    (insertDesc x l).Pairwise (fun a b => b.combatEngagements ≤ a.combatEngagements) := by
  induction l with
  | nil => simp [insertDesc]
  | cons y ys ih =>
    rw [List.pairwise_cons] at h
    obtain ⟨hy, hys⟩ := h
    unfold insertDesc
    split_ifs with hc
    · rw [List.pairwise_cons]
      refine ⟨fun z hz => ?_, ih hys⟩
      rcases mem_insertDesc.mp hz with rfl | hzys
      · omega
      · exact hy z hzys
    · rw [List.pairwise_cons]
      refine ⟨fun z hz => ?_, ?_⟩
      · rcases List.mem_cons.mp hz with rfl | hzys
        · omega
        · have := hy z hzys; omega
      · rw [List.pairwise_cons]
        exact ⟨hy, hys⟩

theorem pairwise_sortDesc (l : List FrontSector) :
    (sortDesc l).Pairwise (fun a b => b.combatEngagements ≤ a.combatEngagements) := by
  induction l with
  | nil => simp [sortDesc]
  | cons x xs ih => exact pairwise_insertDesc ih

/-- Stability of the insertion: among records of any one count value the
relative order is untouched (an inserted element only jumps over strictly
greater counts). -/
theorem filter_insertDesc (c : Nat) (x : FrontSector) (l : List FrontSector) :
    (insertDesc x l).filter (fun r => r.combatEngagements == c) =
      ((x :: l).filter (fun r => r.combatEngagements == c)) := by
  induction l with
  | nil => rfl
  | cons y ys ih =>
    unfold insertDesc
    split_ifs with h
    · rw [List.filter_cons, List.filter_cons, ih, List.filter_cons, List.filter_cons]
      split_ifs with h1 h2 <;> try rfl
      · exfalso
        rw [beq_iff_eq] at h1 h2
        omega
    · rfl

theorem filter_sortDesc (c : Nat) (l : List FrontSector) :
    (sortDesc l).filter (fun r => r.combatEngagements == c) =
      l.filter (fun r => r.combatEngagements == c) := by
  induction l with
  | nil => rfl
  | cons x xs ih =>
    show (insertDesc x (sortDesc xs)).filter _ = _
    rw [filter_insertDesc, List.filter_cons, List.filter_cons, ih]

/-! ### Dictionary (association list) lemmas -/

theorem lookupA_setA_self (m : List (String × Nat)) (c : String) (n : Nat) :
    lookupA (setA m c n) c = some n := by
  induction m with
  | nil => simp [setA, lookupA]
  | cons p t ih =>
    obtain ⟨k, v⟩ := p
    unfold setA
    split_ifs with h
    · simp [lookupA, h]
    · simp [lookupA, h, ih]

theorem lookupA_setA_ne (m : List (String × Nat)) {c cx : String} (h : cx ≠ c) (n : Nat) :
    lookupA (setA m cx n) c = lookupA m c := by
  induction m with
  | nil =>
    have hb : (cx == c) = false := beq_eq_false_iff_ne.mpr h
    simp [setA, lookupA, hb]
  | cons p t ih =>
    obtain ⟨k, v⟩ := p
    unfold setA
    split_ifs with hk
    · rw [beq_iff_eq] at hk
      subst hk
      have hb : (k == c) = false := beq_eq_false_iff_ne.mpr h
      simp [lookupA, hb]
    · unfold lookupA
      split_ifs with hkc
      · rfl
      · exact ih

theorem lookupA_eq_none {m : List (String × Nat)} {k : String}
    (h : k ∉ m.map Prod.fst) : lookupA m k = none := by
  induction m with
  | nil => rfl
  | cons p t ih =>
    obtain ⟨a, b⟩ := p
    have ha : a ≠ k := by
      intro he
      exact h (by simp [he])
    have hb : (a == k) = false := beq_eq_false_iff_ne.mpr ha
    unfold lookupA
    rw [hb]
    exact ih (fun hm => h (by simp [hm]))

/-! ### Conflict-policy (max-wins) characterisation -/

/-- The fold absorbing one more candidate count into the running value of
one sector: absent sector takes the count, present sector the maximum. -/
def optMax (o : Option Nat) (n : Nat) : Option Nat :=
  match o with
  | none => some n
  | some m => some (max m n)

theorem lookupA_stepMatch (st : List (String × Nat)) (m : List Char × List Char)
    (c : String) :
    lookupA (stepMatch st m) c =
      match candOf m.1 m.2 with
      | some p => if p.1 = c then optMax (lookupA st c) p.2 else lookupA st c
      | none => lookupA st c := by
  cases hc : candOf m.1 m.2 with
  | none => simp only [stepMatch, hc]
  | some p =>
    obtain ⟨cx, n⟩ := p
    simp only [hc]
    cases hl : lookupA st cx with
    | none =>
      have hsm : stepMatch st m = setA st cx n := by
        simp only [stepMatch, hc, hl]
      by_cases hcc : cx = c
      · subst hcc
        rw [hsm, if_pos rfl, hl, lookupA_setA_self]
        rfl
      · rw [hsm, if_neg hcc, lookupA_setA_ne st hcc n]
    | some cur =>
      have hsm : stepMatch st m = if n > cur then setA st cx n else st := by
        simp only [stepMatch, hc, hl]
      by_cases hcc : cx = c
      · subst hcc
        rw [hsm, if_pos rfl, hl]
        by_cases hgt : n > cur
        · rw [if_pos hgt, lookupA_setA_self]
          simp only [optMax]
          congr 1
          omega
        · rw [if_neg hgt, hl]
          simp only [optMax]
          congr 1
          omega
      · rw [hsm, if_neg hcc]
        by_cases hgt : n > cur
        · rw [if_pos hgt, lookupA_setA_ne st hcc n]
        · rw [if_neg hgt]

theorem lookupA_foldl_stepMatch (ms : List (List Char × List Char)) (c : String) :
    ∀ st, lookupA (ms.foldl stepMatch st) c =
      (ms.filterMap (fun m =>
        match candOf m.1 m.2 with
        | some p => if p.1 = c then some p.2 else none
        | none => none)).foldl optMax (lookupA st c) := by
  induction ms with
  | nil => intro st; rfl
  | cons m ms ih =>
    intro st
    rw [List.foldl_cons, ih (stepMatch st m)]
    have hstep := lookupA_stepMatch st m c
    cases hc : candOf m.1 m.2 with
    | none =>
      simp only [hc] at hstep
      simp only [List.filterMap_cons, hc]
      rw [hstep]
    | some p =>
      obtain ⟨cx, n⟩ := p
      simp only [hc] at hstep
      by_cases hcc : cx = c
      · subst hcc
        rw [if_pos rfl] at hstep
        rw [hstep]
        simp [List.filterMap_cons, hc, List.foldl_cons]
      · rw [if_neg hcc] at hstep
        rw [hstep]
        simp [List.filterMap_cons, hc, hcc]

/-- The candidate counts a given text contributes to one canonical
sector: every raw match of every pattern that resolves to that sector,
in processing order. -/
def candidateCounts (text : String) (c : String) : List Nat :=
  (allRawMatches (lowerL text.data)).filterMap (fun m =>
    match candOf m.1 m.2 with
    | some p => if p.1 = c then some p.2 else none
    | none => none)

theorem lookupA_parse (text : String) (c : String) :
    lookupA (parse_engagement_count text) c =
      (candidateCounts text c).foldl optMax none :=
  lookupA_foldl_stepMatch (allRawMatches (lowerL text.data)) c []

/-! ### Total-engagement sum lemmas -/

theorem sum_map_ite_of_not_mem {R : List String} {k : String} (hk : k ∉ R)
    (v : Nat) (g : String → Nat) :
    R.map (fun s => if s = k then v else g s) = R.map g := by
  apply List.map_congr_left
  intro s hs
  have hne : ¬ s = k := by
    intro he
    subst he
    exact hk hs
  exact if_neg hne

theorem sum_map_pick (k : String) (v : Nat) (g : String → Nat) :
    ∀ R : List String, R.Nodup → k ∈ R → g k = 0 →
    (R.map (fun s => if s = k then v else g s)).sum = v + (R.map g).sum := by
  intro R
  induction R with
  | nil => intro _ hk; exact absurd hk (List.not_mem_nil k)
  | cons s R ih =>
    intro hnd hk hg
    rw [List.nodup_cons] at hnd
    obtain ⟨hs, hnd⟩ := hnd
    by_cases hsk : s = k
    · subst hsk
      rw [List.map_cons, List.map_cons, List.sum_cons, List.sum_cons,
        if_pos rfl, sum_map_ite_of_not_mem hs, hg]
      omega
    · have hkR : k ∈ R := by
        rcases List.mem_cons.mp hk with h | h
        · exact absurd h.symm hsk
        · exact h
      rw [List.map_cons, List.map_cons, List.sum_cons, List.sum_cons,
        if_neg hsk, ih hnd hkR hg]
      omega

/-- Summing the defaulted lookups over any duplicate-free list that
contains every key of the map recovers the sum of the map's values. -/
theorem sum_registry_lookup :
    ∀ (m : List (String × Nat)) (R : List String), R.Nodup →
    (m.map Prod.fst).Nodup → (∀ k ∈ m.map Prod.fst, k ∈ R) →
    (R.map (fun s => (lookupA m s).getD 0)).sum = sumValues m := by
  intro m
  induction m with
  | nil =>
    intro R _ _ _
    have : R.map (fun s => (lookupA [] s).getD 0) = R.map (fun _ => 0) :=
      List.map_congr_left (fun s _ => rfl)
    rw [this, sumValues]
    simp
  | cons p m ih =>
    intro R hR hnd hsub
    obtain ⟨k, v⟩ := p
    rw [List.map_cons] at hnd
    rw [List.nodup_cons] at hnd
    obtain ⟨hkm, hndm⟩ := hnd
    have hmap : R.map (fun s => (lookupA ((k, v) :: m) s).getD 0) =
        R.map (fun s => if s = k then v else (lookupA m s).getD 0) := by
      apply List.map_congr_left
      intro s _
      by_cases hsk : s = k
      · subst hsk
        simp [lookupA]
      · have hb : (k == s) = false := beq_eq_false_iff_ne.mpr (fun he => hsk he.symm)
        simp [lookupA, hb, hsk]
    have hkR : k ∈ R := hsub k (by simp)
    have hg : (lookupA m k).getD 0 = 0 := by
      rw [lookupA_eq_none hkm]
      rfl
    have hsubm : ∀ kx ∈ m.map Prod.fst, kx ∈ R := by
      intro kx hkx
      exact hsub kx (by simp [hkx])
    rw [hmap, sum_map_pick k v _ R hR hkR hg, ih R hR hndm hsubm]
    rfl

/-! ### Registry-driven record lemmas -/

theorem filterName_nil (counts : List (String × Nat)) (sid : String) :
    ∀ cfg : List (String × SectorInfo), sid ∉ cfg.map Prod.fst →
    (cfg.map (mkSector counts)).filter (fun r => r.name == sid) = [] := by
  intro cfg
  induction cfg with
  | nil => intro _; rfl
  | cons p t ih =>
    intro hns
    have hne : p.1 ≠ sid := fun he => hns (by simp [he])
    have hb : ((mkSector counts p).name == sid) = false :=
      beq_eq_false_iff_ne.mpr hne
    rw [List.map_cons, List.filter_cons, hb]
    simp only [Bool.false_eq_true, if_false]
    exact ih (fun hm => hns (by simp [hm]))

/-- Exactly one record per registry sector, carrying the defaulted count. -/
theorem filterName_singleton (counts : List (String × Nat)) (sid : String) :
    ∀ cfg : List (String × SectorInfo), (cfg.map Prod.fst).Nodup →
    sid ∈ cfg.map Prod.fst →
    ∃ r, (cfg.map (mkSector counts)).filter (fun r => r.name == sid) = [r] ∧
      r.combatEngagements = (lookupA counts sid).getD 0 := by
  intro cfg
  induction cfg with
  | nil => intro _ hmem; exact absurd hmem (List.not_mem_nil sid)
  | cons p t ih =>
    intro hnd hmem
    rw [List.map_cons, List.nodup_cons] at hnd
    obtain ⟨hp, hndt⟩ := hnd
    by_cases hps : p.1 = sid
    · refine ⟨mkSector counts p, ?_, ?_⟩
      · have hb : ((mkSector counts p).name == sid) = true := beq_iff_eq.mpr hps
        rw [List.map_cons, List.filter_cons, hb, if_pos rfl]
        rw [filterName_nil counts sid t (hps ▸ hp)]
      · show (lookupA counts p.1).getD 0 = _
        rw [hps]
    · have hmt : sid ∈ t.map Prod.fst := by
        rcases List.mem_cons.mp hmem with h | h
        · exact absurd h.symm hps
        · exact h
      obtain ⟨r, hr, hrc⟩ := ih hndt hmt
      refine ⟨r, ?_, hrc⟩
      have hb : ((mkSector counts p).name == sid) = false :=
        beq_eq_false_iff_ne.mpr hps
      rw [List.map_cons, List.filter_cons, hb]
      simp only [Bool.false_eq_true, if_false]
      exact hr

/-- The names of the pre-sort record list are exactly the registry IDs. -/
theorem names_frontSectorsOf (counts : List (String × Nat)) :
    (frontSectorsOf counts).map (fun r => r.name) = registryIds := by
  show (DIRECTION_CONFIG.map (mkSector counts)).map (fun r => r.name) =
    DIRECTION_CONFIG.map Prod.fst
  rw [List.map_map]
  apply List.map_congr_left
  intro p _
  rfl

theorem mem_names_build (counts : List (String × Nat)) (url : Option String)
    (cas : Casualties) (t1 t2 : Nat) {sid : String} (h : sid ∈ registryIds) :
    sid ∈ (build_combat_data counts url cas t1 t2).frontSectors.map
      (fun r => r.name) := by
  simp only [build_combat_data]
  have hperm := (perm_sortDesc (frontSectorsOf counts)).map (fun r => r.name)
  rw [hperm.mem_iff, names_frontSectorsOf]
  exact h

/-! ### Alias-resolution lemmas -/

theorem aliasFind_append_found (d : List Char) :
    ∀ (pre : List (String × String)) (a canon : String) (suf : List (String × String)),
    (∀ p ∈ pre, compatibleL p.1.data d = false) → compatibleL a.data d = true →
    aliasFind (pre ++ (a, canon) :: suf) d = some canon := by
  intro pre
  induction pre with
  | nil =>
    intro a canon suf _ ha
    simp [aliasFind, ha]
  | cons q t ih =>
    intro a canon suf hpre ha
    have hq : compatibleL q.1.data d = false := hpre q (List.mem_cons_self q t)
    simp only [List.cons_append, aliasFind, hq]
    simp only [Bool.false_eq_true, if_false]
    exact ih a canon suf (fun p hp => hpre p (List.mem_cons_of_mem q hp)) ha

theorem aliasFind_none (d : List Char) :
    ∀ l : List (String × String), (∀ p ∈ l, compatibleL p.1.data d = false) →
    aliasFind l d = none := by
  intro l
  induction l with
  | nil => intro _; rfl
  | cons q t ih =>
    intro hl
    have hq : compatibleL q.1.data d = false := hl q (List.mem_cons_self q t)
    simp only [aliasFind, hq]
    simp only [Bool.false_eq_true, if_false]
    exact ih (fun p hp => hl p (List.mem_cons_of_mem q hp))

/-! ### Digit-phrase lemmas -/

theorem isSpacePy_eq_false_of_isDigit {c : Char} (h : c.isDigit = true) :
    isSpacePy c = false := by
  by_contra hsp
  rw [Bool.not_eq_false] at hsp
  unfold isSpacePy at hsp
  simp only [Bool.or_eq_true, beq_iff_eq] at hsp
  rcases hsp with ((((rfl | rfl) | rfl) | rfl) | rfl) | rfl <;>
    exact absurd h (by decide)

theorem cleanDirection_digits {d : List Char} (hne : d ≠ [])
    (hd : ∀ c ∈ d, c.isDigit = true) : cleanDirection d = d := by
  have hstrip : stripL d = d := by
    unfold stripL
    have h1 : d.dropWhile isSpacePy = d := by
      cases d with
      | nil => rfl
      | cons c t =>
        rw [List.dropWhile_cons,
          isSpacePy_eq_false_of_isDigit (hd c (List.mem_cons_self c t))]
        simp
    rw [h1]
    have h2 : d.reverse.dropWhile isSpacePy = d.reverse := by
      cases hr : d.reverse with
      | nil => rfl
      | cons c t =>
        have hc : c ∈ d := by
          rw [← List.mem_reverse, hr]
          exact List.mem_cons_self c t
        rw [List.dropWhile_cons, isSpacePy_eq_false_of_isDigit (hd c hc)]
        simp
    rw [h2, List.reverse_reverse]
  unfold cleanDirection
  rw [hstrip]
  have hid : ∀ c ∈ d, (if c == '-' then '_' else if c == ' ' then '_' else c) = c := by
    intro c hc
    have hdc := hd c hc
    have h1 : (c == '-') = false := by
      rw [beq_eq_false_iff_ne]
      rintro rfl
      exact absurd hdc (by decide)
    have h2 : (c == ' ') = false := by
      rw [beq_eq_false_iff_ne]
      rintro rfl
      exact absurd hdc (by decide)
    rw [h1, h2]
    simp
  rw [List.map_congr_left hid]
  simp

theorem mem_of_startsWithL :
    ∀ {p s : List Char} {c : Char}, startsWithL p s = true → c ∈ p → c ∈ s := by
  intro p
  induction p with
  | nil =>
    intro s c _ hc
    exact absurd hc (List.not_mem_nil c)
  | cons a as ih =>
    intro s c hsw hc
    cases s with
    | nil => simp [startsWithL] at hsw
    | cons b bs =>
      simp only [startsWithL, Bool.and_eq_true, beq_iff_eq] at hsw
      obtain ⟨rfl, h2⟩ := hsw
      rcases List.mem_cons.mp hc with rfl | hc2
      · exact List.mem_cons_self c bs
      · exact List.mem_cons_of_mem a (ih h2 hc2)

theorem mem_of_isSubstrL :
    ∀ {s p : List Char} {c : Char}, isSubstrL p s = true → c ∈ p → c ∈ s := by
  intro s
  induction s with
  | nil =>
    intro p c hs hc
    cases p with
    | nil => exact absurd hc (List.not_mem_nil c)
    | cons x xs => simp [isSubstrL] at hs
  | cons b bs ih =>
    intro p c hs hc
    simp only [isSubstrL, Bool.or_eq_true] at hs
    rcases hs with h1 | h2
    · exact mem_of_startsWithL h1 hc
    · exact List.mem_cons_of_mem b (ih h2 hc)

/-- A nonempty all-digit phrase is never substring-compatible with an
alias key containing no digit. -/
theorem compatible_digits_false {a d : List Char}
    (hane : a ≠ []) (hano : ∀ c ∈ a, c.isDigit = false)
    (hdne : d ≠ []) (hdd : ∀ c ∈ d, c.isDigit = true) :
    compatibleL a d = false := by
  unfold compatibleL
  rw [Bool.or_eq_false_iff]
  constructor
  · by_contra h
    rw [Bool.not_eq_false] at h
    obtain ⟨c, hca⟩ := List.exists_mem_of_ne_nil a hane
    have hcd : c ∈ d := mem_of_isSubstrL h hca
    have h1 := hano c hca
    have h2 := hdd c hcd
    rw [h1] at h2
    exact Bool.noConfusion h2
  · by_contra h
    rw [Bool.not_eq_false] at h
    obtain ⟨c, hcd⟩ := List.exists_mem_of_ne_nil d hdne
    have hca : c ∈ a := mem_of_isSubstrL h hcd
    have h1 := hano c hca
    have h2 := hdd c hcd
    rw [h1] at h2
    exact Bool.noConfusion h2

/-- Every alias key is nonempty and contains no digit. -/
theorem alias_table_nondigit :
    ∀ p ∈ DIRECTION_ALIASES, p.1.data ≠ [] ∧ ∀ c ∈ p.1.data, c.isDigit = false := by
  decide

theorem resolveCanonical_digits_none {d : List Char} (hdne : d ≠ [])
    (hdd : ∀ c ∈ d, c.isDigit = true) : resolveCanonical d = none := by
  apply aliasFind_none
  intro p hp
  obtain ⟨hne, hno⟩ := alias_table_nondigit p hp
  exact compatible_digits_false hne hno hdne hdd

/-! ### Claim theorems -/

/-- C8: the Heat Classifier maps every non-negative count to one of five
ordered severity labels by fixed thresholds inclusive on the lower end —
below 3 `quiet`, 3–7 `low`, 8–14 `medium`, 15–29 `high`, 30 and above
`extreme` — and is monotonic: for counts `a < b` the bucket of `b` is
never lower than the bucket of `a`. -/
theorem C8_heat_thresholds_monotonic :
    (∀ n : Nat, n < 3 → get_heat_level n = "quiet")
    ∧ (∀ n : Nat, 3 ≤ n → n ≤ 7 → get_heat_level n = "low")
    ∧ (∀ n : Nat, 8 ≤ n → n ≤ 14 → get_heat_level n = "medium")
    ∧ (∀ n : Nat, 15 ≤ n → n ≤ 29 → get_heat_level n = "high")
    ∧ (∀ n : Nat, 30 ≤ n → get_heat_level n = "extreme")
    ∧ (∀ a b : Nat, a < b →
        heatRank (get_heat_level a) ≤ heatRank (get_heat_level b)) := by
  refine ⟨?_, ?_, ?_, ?_, ?_, ?_⟩
  · intro n h
    unfold get_heat_level
    rw [if_neg (by omega), if_neg (by omega), if_neg (by omega), if_neg (by omega)]
  · intro n h1 h2
    unfold get_heat_level
    rw [if_neg (by omega), if_neg (by omega), if_neg (by omega), if_pos (by omega)]
  · intro n h1 h2
    unfold get_heat_level
    rw [if_neg (by omega), if_neg (by omega), if_pos (by omega)]
  · intro n h1 h2
    unfold get_heat_level
    rw [if_neg (by omega), if_pos (by omega)]
  · intro n h
    unfold get_heat_level
    rw [if_pos (by omega)]
  · intro a b hab
    rw [heatRank_get_heat_level, heatRank_get_heat_level]
    split_ifs <;> omega

theorem C8_heat_thresholds_monotonic_witness :
    get_heat_level 2 = "quiet" ∧ get_heat_level 5 = "low"
    ∧ get_heat_level 10 = "medium" ∧ get_heat_level 20 = "high"
    ∧ get_heat_level 30 = "extreme"
    ∧ heatRank (get_heat_level 4) ≤ heatRank (get_heat_level 9) :=
  ⟨C8_heat_thresholds_monotonic.1 2 (by omega),
   C8_heat_thresholds_monotonic.2.1 5 (by omega) (by omega),
   C8_heat_thresholds_monotonic.2.2.1 10 (by omega) (by omega),
   C8_heat_thresholds_monotonic.2.2.2.1 20 (by omega) (by omega),
   C8_heat_thresholds_monotonic.2.2.2.2.1 30 (by omega),
   C8_heat_thresholds_monotonic.2.2.2.2.2 4 9 (by omega)⟩

/-- C6: for every Engagement Count Map the `frontSectors` sequence of the
built snapshot is sorted by `combatEngagements` descending, and among
records of equal count the registry iteration order (the pre-sort record
order) is preserved — a stable sort. -/
theorem C6_sorted_stable (counts : List (String × Nat)) (url : Option String)
    (cas : Casualties) (t1 t2 : Nat) :
    ((build_combat_data counts url cas t1 t2).frontSectors.Pairwise
      (fun a b => b.combatEngagements ≤ a.combatEngagements))
    ∧ ∀ c : Nat,
        (build_combat_data counts url cas t1 t2).frontSectors.filter
          (fun r => r.combatEngagements == c) =
        (frontSectorsOf counts).filter (fun r => r.combatEngagements == c) := by
  constructor
  · simp only [build_combat_data]
    exact pairwise_sortDesc _
  · intro c
    simp only [build_combat_data]
    exact filter_sortDesc c _

/-- C5: the Snapshot Builder emits exactly one Front Sector Record for
every sector of the Sector Registry, whose `combatEngagements` is the
count map's value for that sector, or 0 when the sector is absent. -/
theorem C5_registry_complete (counts : List (String × Nat)) (url : Option String)
    (cas : Casualties) (t1 t2 : Nat) (sid : String) (hsid : sid ∈ registryIds) :
    ((build_combat_data counts url cas t1 t2).frontSectors.filter
      (fun r => r.name == sid)).map (fun r => r.combatEngagements) =
    [(lookupA counts sid).getD 0] := by
  obtain ⟨r, hfo, hrc⟩ :=
    filterName_singleton counts sid DIRECTION_CONFIG (by decide) hsid
  simp only [build_combat_data]
  have hperm :=
    (perm_sortDesc (frontSectorsOf counts)).filter (fun r => r.name == sid)
  rw [show (frontSectorsOf counts).filter (fun r => r.name == sid) = [r] from hfo]
    at hperm
  rw [List.perm_singleton.mp hperm]
  simp [hrc]

theorem C5_registry_complete_witness :
    ((build_combat_data [("lyman", 7)] none STATIC_CASUALTIES 0 0).frontSectors.filter
      (fun r => r.name == "kherson")).map (fun r => r.combatEngagements) =
    [(lookupA [("lyman", 7)] "kherson").getD 0] :=
  C5_registry_complete [("lyman", 7)] none STATIC_CASUALTIES 0 0 "kherson" (by decide)

/-- C3: for every Engagement Count Map (duplicate-free keys drawn from
the Sector Registry, as the data model requires) the snapshot's
`totalEngagements` equals the sum of `combatEngagements` over all emitted
Front Sector Records. -/
theorem C3_total_eq_sum_records (counts : List (String × Nat)) (url : Option String)
    (cas : Casualties) (t1 t2 : Nat)
    (hnd : (counts.map Prod.fst).Nodup)
    (hsub : ∀ k ∈ counts.map Prod.fst, k ∈ registryIds) :
    (build_combat_data counts url cas t1 t2).totalEngagements =
      ((build_combat_data counts url cas t1 t2).frontSectors.map
        (fun r => r.combatEngagements)).sum := by
  simp only [build_combat_data]
  have hperm := ((perm_sortDesc (frontSectorsOf counts)).map
    (fun r => r.combatEngagements)).sum_eq
  rw [hperm]
  have hmap : (frontSectorsOf counts).map (fun r => r.combatEngagements) =
      registryIds.map (fun s => (lookupA counts s).getD 0) := by
    show (DIRECTION_CONFIG.map (mkSector counts)).map _ =
      (DIRECTION_CONFIG.map Prod.fst).map _
    rw [List.map_map, List.map_map]
    apply List.map_congr_left
    intro p _
    rfl
  rw [hmap, sum_registry_lookup counts registryIds (by decide) hnd hsub]

theorem C3_total_eq_sum_records_witness :
    (build_combat_data FALLBACK_ENGAGEMENT_COUNTS none STATIC_CASUALTIES 0 0).totalEngagements =
      ((build_combat_data FALLBACK_ENGAGEMENT_COUNTS none
        STATIC_CASUALTIES 0 0).frontSectors.map
          (fun r => r.combatEngagements)).sum :=
  C3_total_eq_sum_records FALLBACK_ENGAGEMENT_COUNTS none STATIC_CASUALTIES 0 0
    (by decide) (by decide)

/-- C2: whenever several extractor matches resolve to the same canonical
sector, the retained count is the maximum of the candidates (never the
sum, never the last seen): the map's entry for any sector is exactly the
max-fold of that sector's candidate counts.  In particular a text with
two extractable mentions of one sector counting 12 and 7 yields 12. -/
theorem C2_conflict_max :
    (∀ (text : String) (c : String),
      lookupA (parse_engagement_count text) c =
        (candidateCounts text c).foldl optMax none)
    ∧ parse_engagement_count
        "Pokrovsk direction – 12 attacks. Pokrovsk direction – 7 attacks." =
      [("pokrovsk", 12)] := by
  refine ⟨lookupA_parse, ?_⟩
  decide

/-- C4: alias resolution is deterministic bidirectional-substring lookup:
the table is scanned in authored insertion order and the first entry
whose key contains the phrase or is contained in it wins; with no
compatible entry the lookup yields no match.  Concretely,
`slovyansk_direction_area` resolves to `sloviansk`, `lyman` to `lyman`,
and an unrelated phrase to nothing. -/
theorem C4_alias_first_compatible :
    (∀ (d : List Char) (pre : List (String × String)) (a canon : String)
        (suf : List (String × String)),
      DIRECTION_ALIASES = pre ++ (a, canon) :: suf →
      (∀ p ∈ pre, compatibleL p.1.data d = false) →
      compatibleL a.data d = true →
      resolveCanonical d = some canon)
    ∧ (∀ d : List Char,
        (∀ p ∈ DIRECTION_ALIASES, compatibleL p.1.data d = false) →
        resolveCanonical d = none)
    ∧ resolveCanonical "slovyansk_direction_area".data = some "sloviansk"
    ∧ resolveCanonical "lyman".data = some "lyman"
    ∧ resolveCanonical "qqq".data = none := by
  refine ⟨?_, ?_, by decide, by decide, by decide⟩
  · intro d pre a canon suf htab hpre ha
    unfold resolveCanonical
    rw [htab]
    exact aliasFind_append_found d pre a canon suf hpre ha
  · intro d hall
    exact aliasFind_none d DIRECTION_ALIASES hall

theorem C4_alias_first_compatible_witness :
    resolveCanonical "lyman".data = some "lyman"
    ∧ resolveCanonical "qqq".data = none :=
  ⟨C4_alias_first_compatible.1 "lyman".data (DIRECTION_ALIASES.take 6) "lyman"
      "lyman" (DIRECTION_ALIASES.drop 7) (by decide) (by decide) (by decide),
   C4_alias_first_compatible.2.1 "qqq".data (by decide)⟩

/-- C7: the end-to-end scenario — the Count Extractor applied to
"In the Pokrovsk direction, the enemy made 43 attacks. Lyman direction –
10 attacks." returns exactly the map pokrovsk ↦ 43, lyman ↦ 10, and in
the snapshot built from it every other registry sector carries count 0. -/
theorem C7_end_to_end :
    parse_engagement_count
      "In the Pokrovsk direction, the enemy made 43 attacks. Lyman direction – 10 attacks." =
      [("pokrovsk", 43), ("lyman", 10)]
    ∧ ((build_combat_data
        (parse_engagement_count
          "In the Pokrovsk direction, the enemy made 43 attacks. Lyman direction – 10 attacks.")
        (some "https://www.ukrinform.net/rubric-ato/example.html")
        STATIC_CASUALTIES 0 0).frontSectors.all
          (fun r => r.name == "pokrovsk" || r.name == "lyman" ||
            r.combatEngagements == 0)) = true := by
  constructor
  · decide
  · decide

/-- C9: the code stamps `date` and `lastUpdate` from two successive
`datetime.now` reads; at instants straddling UTC midnight (first read at
86399 s, second at 86400 s since the epoch) the snapshot's calendar date
differs from the calendar date of its `lastUpdate` — refuting the claim
that both always derive from one captured instant. -/
theorem C9_two_instants_divergence :
    (build_combat_data [] none STATIC_CASUALTIES 86399 86400).date ≠
      (build_combat_data [] none STATIC_CASUALTIES 86399 86400).lastUpdate / 86400 := by
  decide

/-- C10 counterexample: a match whose two captured groups are both purely
numeric is not possible only under the generic list-form pattern — the
direction-anchored pattern 2 produces one on "12 direction – 7 attacks". -/
theorem C10_both_numeric_not_only_generic :
    ¬ (∀ (t : String) (p : RE) (m : List Char × List Char), p ∈ patternList →
        m ∈ (pyFinditer p (lowerL t.data)).map groupsOf →
        isdigitL m.1 = true → isdigitL m.2 = true → p = pat5) := by
  intro h
  have h2 := h "12 direction – 7 attacks" pat2 ("12".data, "7".data)
    (by decide) (by decide) (by decide) (by decide)
  exact absurd h2 (by decide)

/-- C10 (amended): whenever both captured groups of a match are purely
numeric — under whichever pattern — the first group is taken as the count
and the second as the location phrase, and since a purely numeric phrase
is never substring-compatible with any alias key, the match contributes
nothing to the count map. -/
theorem C10_numeric_groups_inert (g1 g2 : List Char) (h1 : g1 ≠ []) (h2 : g2 ≠ [])
    (hd1 : ∀ c ∈ g1, c.isDigit = true) (hd2 : ∀ c ∈ g2, c.isDigit = true) :
    disambiguate g1 g2 = (toNatL g1, g2) ∧ candOf g1 g2 = none
    ∧ ∀ st, stepMatch st (g1, g2) = st := by
  have hdig1 : isdigitL g1 = true := by
    unfold isdigitL
    rw [Bool.and_eq_true]
    constructor
    · cases g1 with
      | nil => exact absurd rfl h1
      | cons c t => rfl
    · rw [List.all_eq_true]
      exact hd1
  have hdis : disambiguate g1 g2 = (toNatL g1, g2) := by
    unfold disambiguate
    rw [hdig1]
    simp
  have hcand : candOf g1 g2 = none := by
    unfold candOf
    rw [hdis]
    show (match resolveCanonical (cleanDirection g2) with
      | some canonical =>
        if registryHas canonical then some (canonical, toNatL g1) else none
      | none => none) = none
    rw [cleanDirection_digits h2 hd2, resolveCanonical_digits_none h2 hd2]
  refine ⟨hdis, hcand, ?_⟩
  intro st
  have hcand2 : candOf (g1, g2).1 (g1, g2).2 = none := hcand
  unfold stepMatch
  rw [hcand2]

theorem C10_numeric_groups_inert_witness :
    disambiguate "12".data "7".data = (toNatL "12".data, "7".data)
    ∧ candOf "12".data "7".data = none :=
  ⟨(C10_numeric_groups_inert "12".data "7".data (by decide) (by decide)
      (by decide) (by decide)).1,
   (C10_numeric_groups_inert "12".data "7".data (by decide) (by decide)
      (by decide) (by decide)).2.1⟩

/-- C1 counterexample: a report fetch that raises (network error,
timeout, or non-success status via `raise_for_status`) is not caught by
`main` — the run aborts with the error and writes no snapshot, refuting
"the failure is never surfaced and the run never aborts without output". -/
theorem C1_fetch_error_aborts_run :
    main (FetchOutcome.raised "requests.exceptions.ConnectionError") none
      STATIC_CASUALTIES 0 0 =
    Except.error "requests.exceptions.ConnectionError" := rfl

/-- C1 (amended): when the fetch returns no article — no matching link or
no article body, the `(None, None)` outcome — `main` recovers through the
fallback chain (prior snapshot first, else the fixed literal map), still
runs the Snapshot Builder with a null source URL, and the written
snapshot covers every registry sector. -/
theorem C1_notFound_uses_fallback_chain (prior : CombatData) (cas : Casualties)
    (t1 t2 : Nat) :
    main FetchOutcome.notFound (some prior) cas t1 t2 =
      Except.ok (build_combat_data (reconstructCounts prior) none cas t1 t2)
    ∧ main FetchOutcome.notFound none cas t1 t2 =
      Except.ok (build_combat_data FALLBACK_ENGAGEMENT_COUNTS none cas t1 t2)
    ∧ (∀ sid ∈ registryIds,
        sid ∈ (build_combat_data (reconstructCounts prior) none cas t1 t2).frontSectors.map
          (fun r => r.name))
    ∧ (∀ sid ∈ registryIds,
        sid ∈ (build_combat_data FALLBACK_ENGAGEMENT_COUNTS none cas t1 t2).frontSectors.map
          (fun r => r.name)) := by
  refine ⟨rfl, rfl, ?_, ?_⟩
  · intro sid h
    exact mem_names_build _ _ _ _ _ h
  · intro sid h
    exact mem_names_build _ _ _ _ _ h

theorem C1_notFound_uses_fallback_chain_witness :
    main FetchOutcome.notFound none STATIC_CASUALTIES 0 0 =
      Except.ok (build_combat_data FALLBACK_ENGAGEMENT_COUNTS none STATIC_CASUALTIES 0 0)
    ∧ "pokrovsk" ∈ (build_combat_data FALLBACK_ENGAGEMENT_COUNTS none
        STATIC_CASUALTIES 0 0).frontSectors.map (fun r => r.name) := by
  have h := C1_notFound_uses_fallback_chain
    (build_combat_data [] none STATIC_CASUALTIES 0 0) STATIC_CASUALTIES 0 0
  exact ⟨h.2.1, h.2.2.2 "pokrovsk" (by decide)⟩

end Scraper
